import Mathlib

/-
Verification of the gohttps middleware layer.

The Go sources are embedded shallowly:
  - request bodies are byte lists (`List Nat`), a `none` body models a nil
    or `http.NoBody` request body;
  - the external gocompress compressor (an imported library) is abstracted
    as a record of its two operations used by the middleware,
    `isEncodingSupported` and `decompress`; decode failure carries the
    error text, mirroring Go `error` values;
  - the RFC 9457 problem bodies produced by the middleware are modelled by
    the three fields the middleware sets and the claims inspect
    (status, detail text, instance path);
  - an `Outcome` says whether the downstream handler ran (and with which
    body) or an error response was written instead.
-/

namespace Gohttps

/-- The projection of an RFC 9457 problem-detail body that the middleware
constructs: numeric status, human detail text, and the request path stored
in the instance field. -/
structure Problem where
  status : Nat
  detail : String
  instancePath : String
deriving DecidableEq, Repr

/-- Result of running a middleware on a request: either the downstream
handler is invoked with the given request body, or an error response with
a problem body is written and the handler never runs. -/
inductive Outcome where
  | handler (body : Option (List Nat))
  | response (problem : Problem)
deriving DecidableEq, Repr

/-- The part of an inbound `http.Request` the decompression and body-size
middlewares read: the body (none models nil or `http.NoBody`), the declared
`ContentLength` (an int64, -1 when unknown), the raw list of values of the
`Content-Encoding` header in the order sent, and the URL path. -/
structure Request where
  body : Option (List Nat)
  contentLength : Int
  contentEncoding : List String
  urlPath : String
deriving DecidableEq, Repr

/-- The interface of the external gocompress `DefaultCompressor` that the
middleware calls: encoding-support test and body decompression, where a
decode failure returns the Go error text. -/
structure Compressor where
  isEncodingSupported : String → Bool
  decompress : String → List Nat → Except String (List Nat)

/-- Go `strings.ToLower` on ASCII header tokens: lower-case every character. -/
def toLowerChars (s : String) : List Char :=
  s.data.map Char.toLower

/-- Go `strings.TrimSpace`: drop whitespace from both ends. -/
def trimChars (cs : List Char) : List Char :=
  ((cs.dropWhile Char.isWhitespace).reverse.dropWhile Char.isWhitespace).reverse

/-- Go `strings.TrimSpace(strings.ToLower(encoding))`. -/
def normalizeToken (encoding : String) : String :=
  ⟨trimChars (toLowerChars encoding)⟩

/-- Detail text of the 415 problem body: Go
`fmt.Sprintf("Content-Encoding %v is unsupported", r.Header[ContentEncoding])`,
where the verb prints a string slice as the values separated by spaces
inside square brackets. -/
def unsupportedEncodingDetail (r : Request) : String :=
  "Content-Encoding [" ++ String.intercalate " " r.contentEncoding ++ "] is unsupported"

/-- Go `respondUnsupportedContentEncoding`: a 415 problem body whose
instance field is the request URL path. -/
def respondUnsupportedContentEncoding (r : Request) : Outcome :=
  .response ⟨415, unsupportedEncodingDetail r, r.urlPath⟩

/-- Go `respondDecompressionError`: a 400 bad-request problem body carrying
the decode error text, defaulting to a fixed message when the error is nil,
with the request URL path as the instance field. -/
def respondDecompressionError (r : Request) (err : Option String) : Outcome :=
  .response ⟨400, err.getD "failed to decompress body", r.urlPath⟩

/-- The loop of the multi-encoding branch of Go `Decompress`: walk the
declared encodings in order, skip unsupported tokens, try to decode the
fully buffered original body with each supported token (the reader is
re-seeked to the start before every attempt, so each attempt sees the same
bytes); the first successful decode replaces the body and the handler runs;
a failed attempt records its error and continues.  When the list is
exhausted, respond 400 with the last recorded decode error if any supported
token was seen, else 415. -/
def decompressMulti (c : Compressor) (r : Request) (bodyBytes : List Nat) :
    List String → Bool → Option String → Outcome
  | [], seenSupported, lastErr =>
    if seenSupported then respondDecompressionError r lastErr
    else respondUnsupportedContentEncoding r
  | encoding :: rest, seenSupported, lastErr =>
    let t := normalizeToken encoding
    if c.isEncodingSupported t then
      match c.decompress t bodyBytes with
      | .error e => decompressMulti c r bodyBytes rest true (some e)
      | .ok decoded => .handler (some decoded)
    else
      decompressMulti c r bodyBytes rest seenSupported lastErr

/-- Go middleware `Decompress` (the current revision, the one the tests in
decompress_test.go exercise): nil body or `http.NoBody` passes through; a
zero content length or an absent `Content-Encoding` header passes through
unchanged; exactly one encoding value takes the streaming single-token
branch (415 when unsupported, 400 with the decode error on failure,
otherwise the decoded body replaces the request body); two or more values
take the buffered multi-token branch `decompressMulti`.  Reading the body
into memory and seeking a `bytes.Reader` cannot fail, so those Go error
branches are dead in this model. -/
def Decompress (c : Compressor) (r : Request) : Outcome :=
  match r.body with
  | none => .handler none
  | some bodyBytes =>
    if r.contentLength = 0 ∨ r.contentEncoding = [] then
      .handler (some bodyBytes)
    else
      match r.contentEncoding with
      | [encoding] =>
        let t := normalizeToken encoding
        if c.isEncodingSupported t then
          match c.decompress t bodyBytes with
          | .error e => respondDecompressionError r (some e)
          | .ok decoded => .handler (some decoded)
        else
          respondUnsupportedContentEncoding r
      | _ =>
        decompressMulti c r bodyBytes r.contentEncoding false none

/-- The decode attempts the multi-encoding branch performs, in order: one
per declared value whose normalized token is supported, each decoding the
same original buffered bytes. -/
def supportedAttempts (c : Compressor) (bodyBytes : List Nat)
    (encodings : List String) : List (Except String (List Nat)) :=
  ((encodings.map normalizeToken).filter c.isEncodingSupported).map
    (fun t => c.decompress t bodyBytes)

/-- The decoded output of the first successful attempt, if any. -/
def firstOk : List (Except String (List Nat)) → Option (List Nat)
  | [] => none
  | .ok decoded :: _ => some decoded
  | .error _ :: rest => firstOk rest

/-- The error text of the last failing attempt, threaded through an
accumulator seeded with the error recorded so far. -/
def lastError : List (Except String (List Nat)) → Option String → Option String
  | [], acc => acc
  | .ok _ :: rest, acc => lastError rest acc
  | .error e :: rest, _ => lastError rest (some e)

theorem decompressMulti_characterization (c : Compressor) (r : Request)
    (bodyBytes : List Nat) (encodings : List String) (seenSupported : Bool)
    (lastErr : Option String) :
    decompressMulti c r bodyBytes encodings seenSupported lastErr =
      match firstOk (supportedAttempts c bodyBytes encodings) with
      | some decoded => .handler (some decoded)
      | none =>
        if seenSupported || !(supportedAttempts c bodyBytes encodings).isEmpty then
          respondDecompressionError r
            (lastError (supportedAttempts c bodyBytes encodings) lastErr)
        else
          respondUnsupportedContentEncoding r := by
  induction encodings generalizing seenSupported lastErr with
  | nil =>
    simp [decompressMulti, supportedAttempts, firstOk, lastError]
  | cons encoding rest ih =>
    by_cases hsup : c.isEncodingSupported (normalizeToken encoding)
    · cases hdec : c.decompress (normalizeToken encoding) bodyBytes with
      | error e =>
        simp only [decompressMulti, hsup, if_pos, hdec]
        rw [ih]
        simp [supportedAttempts, hsup, hdec, firstOk, lastError]
      | ok decoded =>
        simp only [decompressMulti, hsup, if_pos, hdec]
        simp [supportedAttempts, hsup, hdec, firstOk]
    · simp only [decompressMulti, hsup]
      rw [ih]
      simp [supportedAttempts, hsup]

theorem supportedAttempts_eq_nil (c : Compressor) (bodyBytes : List Nat)
    (encodings : List String)
    (hall : ∀ e ∈ encodings, c.isEncodingSupported (normalizeToken e) = false) :
    supportedAttempts c bodyBytes encodings = [] := by
  unfold supportedAttempts
  rw [List.map_eq_nil_iff, List.filter_eq_nil_iff]
  intro t ht
  obtain ⟨e, he, rfl⟩ := List.mem_map.mp ht
  simp [hall e he]

/-- A small concrete compressor supporting the three gocompress tokens,
decoding the two-byte body 10 20 under gzip to 1 2 and failing on
everything else; used to instantiate witnesses and counterexamples. -/
def witnessCompressor : Compressor where
  isEncodingSupported := fun t => t == "gzip" || t == "deflate" || t == "zstd"
  decompress := fun t b =>
    if t == "gzip" && b == [10, 20] then .ok [1, 2]
    else .error ("cannot decode " ++ t)

/-- C10: a request with a present, non-empty body, nonzero declared content
length and no Content-Encoding header value passes to the downstream
handler unchanged: the body is not replaced and no error response is
written. -/
theorem decompress_no_encoding_passes_through (c : Compressor) (r : Request)
    (bodyBytes : List Nat) (hbody : r.body = some bodyBytes)
    (_hlen : r.contentLength ≠ 0) (henc : r.contentEncoding = []) :
    Decompress c r = .handler (some bodyBytes) := by
  simp [Decompress, hbody, henc]

theorem decompress_no_encoding_witness :
    Decompress witnessCompressor ⟨some [5], 1, [], "/w10"⟩ =
      .handler (some [5]) :=
  decompress_no_encoding_passes_through witnessCompressor
    ⟨some [5], 1, [], "/w10"⟩ [5] rfl (by decide) rfl

/-- C2: for a supported encoding token E (gzip, deflate or zstd) and a
payload P whose compression under E is the request body, with the
Content-Encoding header holding exactly E, the downstream handler reads
exactly P; the round trip of compress-then-middleware-decompress is the
identity on the payload, where the codec round trip itself is the stated
contract of the external compression library. -/
theorem decompress_single_supported_roundtrip (c : Compressor) (r : Request)
    (enc : String) (payload compressed : List Nat)
    (htok : enc = "gzip" ∨ enc = "deflate" ∨ enc = "zstd")
    (hsup : c.isEncodingSupported enc = true)
    (hdec : c.decompress enc compressed = .ok payload)
    (hbody : r.body = some compressed) (hlen : r.contentLength ≠ 0)
    (henc : r.contentEncoding = [enc]) :
    Decompress c r = .handler (some payload) := by
  have hnorm : normalizeToken enc = enc := by
    rcases htok with h | h | h <;> subst h <;> rfl
  simp [Decompress, hbody, henc, hlen, hnorm, hsup, hdec]

theorem decompress_single_supported_roundtrip_witness :
    Decompress witnessCompressor ⟨some [10, 20], 2, ["gzip"], "/w2"⟩ =
      .handler (some [1, 2]) :=
  decompress_single_supported_roundtrip witnessCompressor
    ⟨some [10, 20], 2, ["gzip"], "/w2"⟩ "gzip" [1, 2] [10, 20]
    (Or.inl rfl) rfl rfl rfl (by decide) rfl

/-- C3: with exactly one Content-Encoding token that is supported, a decode
failure produces a 400 response whose problem body carries the underlying
decode error text as its detail and the request path as its instance; the
outcome is a response, so the downstream handler never runs. -/
theorem decompress_single_decode_failure_400 (c : Compressor) (r : Request)
    (enc msg : String) (bodyBytes : List Nat)
    (hbody : r.body = some bodyBytes) (hlen : r.contentLength ≠ 0)
    (henc : r.contentEncoding = [enc])
    (hsup : c.isEncodingSupported (normalizeToken enc) = true)
    (hdec : c.decompress (normalizeToken enc) bodyBytes = .error msg) :
    Decompress c r = .response ⟨400, msg, r.urlPath⟩ := by
  simp [Decompress, hbody, henc, hlen, hsup, hdec, respondDecompressionError]

theorem decompress_single_decode_failure_witness :
    Decompress witnessCompressor ⟨some [9], 1, ["gzip"], "/w3"⟩ =
      .response ⟨400, "cannot decode gzip", "/w3"⟩ :=
  decompress_single_decode_failure_400 witnessCompressor
    ⟨some [9], 1, ["gzip"], "/w3"⟩ "gzip" "cannot decode gzip" [9]
    rfl (by decide) rfl (by decide) rfl

/-- C4: when the request has a non-empty body and at least one
Content-Encoding value but no value normalizes to a supported token, the
middleware responds 415 with a structured problem body whose instance field
is the request path, and the downstream handler is never invoked. -/
theorem decompress_all_unsupported_415 (c : Compressor) (r : Request)
    (bodyBytes : List Nat)
    (hbody : r.body = some bodyBytes) (hlen : r.contentLength ≠ 0)
    (hne : r.contentEncoding ≠ [])
    (hall : ∀ e ∈ r.contentEncoding,
      c.isEncodingSupported (normalizeToken e) = false) :
    Decompress c r = .response ⟨415, unsupportedEncodingDetail r, r.urlPath⟩ := by
  match hes : r.contentEncoding with
  | [] => exact absurd hes hne
  | [e] =>
    have h1 := hall e (by rw [hes]; exact List.mem_singleton_self e)
    simp [Decompress, hbody, hes, hlen, h1, respondUnsupportedContentEncoding]
  | e1 :: e2 :: rest =>
    have hnil : supportedAttempts c bodyBytes r.contentEncoding = [] :=
      supportedAttempts_eq_nil c bodyBytes r.contentEncoding hall
    rw [hes] at hnil
    simp only [Decompress, hbody, hlen, hes]
    rw [decompressMulti_characterization]
    simp [hnil, firstOk, respondUnsupportedContentEncoding,
      unsupportedEncodingDetail, hes]

theorem decompress_all_unsupported_witness :
    Decompress witnessCompressor ⟨some [9], 1, ["br", "unknown"], "/w4"⟩ =
      .response ⟨415, "Content-Encoding [br unknown] is unsupported", "/w4"⟩ :=
  decompress_all_unsupported_415 witnessCompressor
    ⟨some [9], 1, ["br", "unknown"], "/w4"⟩ [9]
    rfl (by decide) (by decide) (by decide)

/-- C1: with two or more Content-Encoding values and a non-empty body, the
middleware buffers the body once and tries, in declared order, each value
whose normalized token is supported against the original buffered bytes
(the attempt list supportedAttempts).  The first successful decode becomes
the handler body and no further tokens are tried; if attempts exist and all
fail, the response is 400 carrying the last decode error; if no declared
token is supported the response is 415. -/
theorem decompress_multi_token_spec (c : Compressor) (r : Request)
    (bodyBytes : List Nat)
    (hbody : r.body = some bodyBytes) (hlen : r.contentLength ≠ 0)
    (hmulti : 2 ≤ r.contentEncoding.length) :
    (∀ decoded,
      firstOk (supportedAttempts c bodyBytes r.contentEncoding) = some decoded →
        Decompress c r = .handler (some decoded))
    ∧ (firstOk (supportedAttempts c bodyBytes r.contentEncoding) = none →
        supportedAttempts c bodyBytes r.contentEncoding ≠ [] →
        Decompress c r = .response
          ⟨400,
            (lastError (supportedAttempts c bodyBytes r.contentEncoding)
              none).getD "failed to decompress body",
            r.urlPath⟩)
    ∧ (supportedAttempts c bodyBytes r.contentEncoding = [] →
        Decompress c r =
          .response ⟨415, unsupportedEncodingDetail r, r.urlPath⟩) := by
  match hes : r.contentEncoding with
  | [] => simp [hes] at hmulti
  | [e] => simp [hes] at hmulti
  | e1 :: e2 :: rest =>
    have hred : Decompress c r =
        decompressMulti c r bodyBytes (e1 :: e2 :: rest) false none := by
      simp [Decompress, hbody, hlen, hes]
    rw [hred, decompressMulti_characterization]
    refine ⟨fun decoded hfst => ?_, fun hfst hne => ?_, fun hnil => ?_⟩
    · simp [hfst]
    · have : (supportedAttempts c bodyBytes (e1 :: e2 :: rest)).isEmpty = false := by
        simpa [List.isEmpty_iff] using hne
      simp [hfst, this, respondDecompressionError]
    · simp [hnil, firstOk, respondUnsupportedContentEncoding,
        unsupportedEncodingDetail, hes]

theorem decompress_multi_token_witness :
    Decompress witnessCompressor ⟨some [10, 20], 2, ["unknown", "gzip"], "/w1"⟩ =
      .handler (some [1, 2]) :=
  (decompress_multi_token_spec witnessCompressor
    ⟨some [10, 20], 2, ["unknown", "gzip"], "/w1"⟩ [10, 20]
    rfl (by decide) (by decide)).1 [1, 2] rfl

/-- C5 as stated is false on the code: the middleware never splits a
comma-separated Content-Encoding value, so one header value listing two
encodings is one (unsupported) token while two separate header values
decode; at this concrete input the two forms produce different outcomes. -/
theorem decompress_header_forms_differ :
    Decompress witnessCompressor ⟨some [10, 20], 2, ["gzip, deflate"], "/w5"⟩ ≠
      Decompress witnessCompressor ⟨some [10, 20], 2, ["gzip", "deflate"], "/w5"⟩ := by
  decide

/-- C5 amended: the middleware derives one token per Content-Encoding
header value in order, normalizing each whole value and never splitting a
comma-separated list; hence a single header value listing two encodings is
treated as one token (415 when that whole string is unsupported) while two
separate header values are treated as two tokens and can decode, so the
two client forms need not produce the same response. -/
theorem decompress_comma_list_not_split (c : Compressor)
    (r1 r2 : Request) (bodyBytes decoded : List Nat)
    (hb1 : r1.body = some bodyBytes) (hl1 : r1.contentLength ≠ 0)
    (he1 : r1.contentEncoding = ["gzip, deflate"])
    (hb2 : r2.body = some bodyBytes) (hl2 : r2.contentLength ≠ 0)
    (he2 : r2.contentEncoding = ["gzip", "deflate"])
    (hcomma : c.isEncodingSupported "gzip, deflate" = false)
    (hgzip : c.isEncodingSupported "gzip" = true)
    (hdec : c.decompress "gzip" bodyBytes = .ok decoded) :
    Decompress c r1 = .response ⟨415, unsupportedEncodingDetail r1, r1.urlPath⟩
    ∧ Decompress c r2 = .handler (some decoded) := by
  constructor
  · have hnorm : normalizeToken "gzip, deflate" = "gzip, deflate" := rfl
    simp [Decompress, hb1, he1, hl1, hnorm, hcomma,
      respondUnsupportedContentEncoding]
  · have hnorm : normalizeToken "gzip" = "gzip" := rfl
    simp [Decompress, hb2, he2, hl2, decompressMulti, hnorm, hgzip, hdec]

theorem decompress_comma_list_witness :
    Decompress witnessCompressor ⟨some [10, 20], 2, ["gzip, deflate"], "/w5a"⟩ =
      .response ⟨415, "Content-Encoding [gzip, deflate] is unsupported", "/w5a"⟩
    ∧ Decompress witnessCompressor ⟨some [10, 20], 2, ["gzip", "deflate"], "/w5a"⟩ =
      .handler (some [1, 2]) :=
  decompress_comma_list_not_split witnessCompressor
    ⟨some [10, 20], 2, ["gzip, deflate"], "/w5a"⟩
    ⟨some [10, 20], 2, ["gzip", "deflate"], "/w5a"⟩ [10, 20] [1, 2]
    rfl (by decide) rfl rfl (by decide) rfl (by decide) (by decide) rfl

/-- Result of running the Go `MaxBodySize` middleware: for a non-positive
limit the middleware constructor returns `next` itself (guard disabled, no
wrapping at all); otherwise the request either reaches the handler (with
the body wrapped in `http.MaxBytesReader` when present) or is rejected with
a 413 problem response. -/
inductive MaxBodyOutcome where
  | disabled
  | handler (wrapped : Bool)
  | response (problem : Problem)
deriving DecidableEq, Repr

/-- Go middleware `MaxBodySize` from max_body_size.go: a limit of zero or
less returns `next` unchanged; a nil or `http.NoBody` body passes through
unwrapped; a declared content length greater than or equal to the limit in
bytes is rejected with a 413 problem body (detail from the `fmt.Sprintf`
message, instance the request path); otherwise the body is wrapped with
`MaxBytesReader` and the handler runs.  Go int64 arithmetic is modelled
with unbounded integers. -/
def MaxBodySize (maxBodySizeKilobytes : Int) (r : Request) : MaxBodyOutcome :=
  if maxBodySizeKilobytes ≤ 0 then
    .disabled
  else
    match r.body with
    | none => .handler false
    | some _ =>
      if maxBodySizeKilobytes * 1024 ≤ r.contentLength then
        .response ⟨413,
          "Request body size exceeded " ++ toString maxBodySizeKilobytes ++ " KB(s)",
          r.urlPath⟩
      else
        .handler true

/-- C6: with a positive limit of N kilobytes, a declared content length of
exactly N*1024 bytes is rejected with a 413 problem response before the
handler runs, a declared content length of N*1024-1 reaches the handler,
and a limit of zero or less disables the guard entirely for every request. -/
theorem maxBodySize_boundary (n : Int) (r : Request) (bodyBytes : List Nat)
    (hn : 0 < n) (hbody : r.body = some bodyBytes) :
    (r.contentLength = n * 1024 →
      MaxBodySize n r = .response
        ⟨413, "Request body size exceeded " ++ toString n ++ " KB(s)", r.urlPath⟩)
    ∧ (r.contentLength = n * 1024 - 1 → MaxBodySize n r = .handler true)
    ∧ (∀ m : Int, m ≤ 0 → ∀ r2 : Request, MaxBodySize m r2 = .disabled) := by
  have h1 : ¬ n ≤ 0 := not_le.mpr hn
  refine ⟨fun hcl => ?_, fun hcl => ?_, fun m hm r2 => ?_⟩
  · simp [MaxBodySize, hbody, hcl, h1]
  · have h2 : ¬ n * 1024 ≤ n * 1024 - 1 := by omega
    simp [MaxBodySize, hbody, hcl, h1, h2]
  · simp [MaxBodySize, hm]

theorem maxBodySize_boundary_witness :
    MaxBodySize 1 ⟨some [0], 1024, [], "/w6"⟩ =
      .response ⟨413, "Request body size exceeded 1 KB(s)", "/w6"⟩ :=
  (maxBodySize_boundary 1 ⟨some [0], 1024, [], "/w6"⟩ [0] (by decide) rfl).1 rfl

/-- Go `encoderGzip` from compress.go with the library constructor
`gzip.NewWriterLevel` abstracted as a parameter: a construction error
yields no encoder (Go returns nil). -/
def encoderGzip (newWriterLevel : Int → Except String (List Nat → List Nat))
    (level : Int) : Option (List Nat → List Nat) :=
  match newWriterLevel level with
  | .error _ => none
  | .ok gw => some gw

/-- Go `encoderDeflate` with `flate.NewWriter` abstracted: a construction
error yields no encoder. -/
def encoderDeflate (newWriter : Int → Except String (List Nat → List Nat))
    (level : Int) : Option (List Nat → List Nat) :=
  match newWriter level with
  | .error _ => none
  | .ok dw => some dw

/-- Go `encoderZstd` with `zstd.NewWriter` abstracted: a construction error
yields no encoder. -/
def encoderZstd (newWriter : Int → Except String (List Nat → List Nat))
    (level : Int) : Option (List Nat → List Nat) :=
  match newWriter level with
  | .error _ => none
  | .ok dw => some dw

/-- Modelled from the spec: the chi compressor picks, from the codings the
client listed in Accept-Encoding, the first one for which an encoder is
available; a coding whose encoder constructor failed offers none and is
skipped. -/
def selectEncoder (available : String → Option (List Nat → List Nat)) :
    List String → Option (String × (List Nat → List Nat))
  | [] => none
  | coding :: rest =>
    match available (normalizeToken coding) with
    | some enc => some (normalizeToken coding, enc)
    | none => selectEncoder available rest

/-- What the compression wrapper leaves on the wire: the Content-Encoding
response header if any, the body bytes written, and whether the bytes went
through an active encoder. -/
structure CompressedResponse where
  contentEncoding : Option String
  bodyWritten : List Nat
  encoderUsed : Bool
deriving DecidableEq, Repr

/-- Modelled from the spec: the chi compression wrapper (an external
dependency wired up by Go `Compress` in compress.go) defers the decision to
the first write; it streams the body through the negotiated encoder and
sets the Content-Encoding response header exactly when an encoder was
selected, the response content type is in the allowlist, and the body meets
the minimum-size threshold; otherwise the bytes pass through unmodified
with no header. -/
def compressWrite (threshold : Nat) (typeAllowed : String → Bool)
    (selected : Option (String × (List Nat → List Nat)))
    (contentType : String) (body : List Nat) : CompressedResponse :=
  match selected with
  | none => ⟨none, body, false⟩
  | some (tok, enc) =>
    if typeAllowed contentType && decide (threshold ≤ body.length) then
      ⟨some tok, enc body, true⟩
    else
      ⟨none, body, false⟩

/-- C7: the compression wrapper sets the Content-Encoding response header
exactly when bytes were passed through an active encoder, and that happens
only when an encoder was selected, the content type is allowed, and the
body reaches the minimum-size threshold; so the header is never set for a
too-small response or a disallowed content type, even when the client
offered a supported coding. -/
theorem compress_header_only_when_encoded (threshold : Nat)
    (typeAllowed : String → Bool)
    (selected : Option (String × (List Nat → List Nat)))
    (contentType : String) (body : List Nat) :
    ((compressWrite threshold typeAllowed selected contentType body).contentEncoding.isSome
      = (compressWrite threshold typeAllowed selected contentType body).encoderUsed)
    ∧ ((compressWrite threshold typeAllowed selected contentType body).contentEncoding.isSome
      = (selected.isSome && typeAllowed contentType
          && decide (threshold ≤ body.length))) := by
  rcases selected with _ | ⟨tok, enc⟩
  · simp [compressWrite]
  · by_cases h : typeAllowed contentType
    · by_cases h2 : threshold ≤ body.length
      · simp [compressWrite, h, h2]
      · simp [compressWrite, h, h2]
    · simp [compressWrite, h]

theorem selectEncoder_unavailable (accepted : List String) :
    selectEncoder (fun _ => none) accepted = none := by
  induction accepted with
  | nil => rfl
  | cons coding rest ih => simp [selectEncoder, ih]

/-- C8: if the library constructor for an encoder fails at the given
compression level, each of the three encoder adapters yields no encoder
(nil); a coding with no encoder is never selected, and with no encoder
selected the response passes through byte-for-byte with no
Content-Encoding header and no error outcome, instead of failing the
request. -/
theorem encoder_construction_failure_degrades
    (ctor : Int → Except String (List Nat → List Nat)) (level : Int)
    (msg : String) (hfail : ctor level = .error msg) :
    encoderGzip ctor level = none
    ∧ encoderDeflate ctor level = none
    ∧ encoderZstd ctor level = none
    ∧ (∀ accepted : List String,
        selectEncoder (fun _ => encoderGzip ctor level) accepted = none)
    ∧ (∀ (threshold : Nat) (typeAllowed : String → Bool)
        (contentType : String) (body : List Nat),
        compressWrite threshold typeAllowed none contentType body
          = ⟨none, body, false⟩) := by
  have hg : encoderGzip ctor level = none := by simp [encoderGzip, hfail]
  have hd : encoderDeflate ctor level = none := by simp [encoderDeflate, hfail]
  have hz : encoderZstd ctor level = none := by simp [encoderZstd, hfail]
  refine ⟨hg, hd, hz, fun accepted => ?_, fun threshold typeAllowed ct body => ?_⟩
  · simp only [hg]
    exact selectEncoder_unavailable accepted
  · rfl

theorem encoder_construction_failure_witness :
    encoderGzip (fun _ => Except.error "invalid compression level") 99 = none :=
  (encoder_construction_failure_degrades
    (fun _ => Except.error "invalid compression level") 99
    "invalid compression level" rfl).1

/-- Accumulate the value of a decimal digit string, failing at the first
non-digit character. -/
def digitsToNat : List Char → Nat → Option Nat
  | [], acc => some acc
  | c :: cs, acc =>
    if c.isDigit then digitsToNat cs (acc * 10 + (c.toNat - 48)) else none

/-- Go `strconv.Atoi` on in-range inputs: an optional sign followed by at
least one ASCII decimal digit parses to the signed value, anything else is
an error (none); the int64 range check is not modelled. -/
def atoi (s : String) : Option Int :=
  match s.data with
  | [] => none
  | '+' :: cs => if cs.isEmpty then none else (digitsToNat cs 0).map Int.ofNat
  | '-' :: cs =>
    if cs.isEmpty then none else (digitsToNat cs 0).map (fun n => -(n : Int))
  | cs => (digitsToNat cs 0).map Int.ofNat

/-- Result of Go `CreatePrometheusServer`: no server because the exporter
is off or the port variable is empty; no server but the /metrics handler
mounted on the main router (nil, nil after `router.Handle`); a separate
metrics server bound to the given port; or the invalid-port startup
error. -/
inductive PromOutcome where
  | noServerDisabled
  | noServerMounted
  | metricsServer (port : Int)
  | invalidPortError (raw : String)
deriving DecidableEq, Repr

/-- Go `CreatePrometheusServer` from the server bootstrap: enabled only
when OTEL_METRICS_EXPORTER is the string prometheus and the port variable
is non-empty; an unparsable port is a startup error; a metrics port equal
to the main port mounts /metrics on the main router and returns no second
server; a different port returns a separate metrics server bound to it. -/
def CreatePrometheusServer (exporterEnv portEnv : String)
    (currentPort : Int) : PromOutcome :=
  if exporterEnv = "prometheus" ∧ portEnv ≠ "" then
    match atoi portEnv with
    | none => .invalidPortError portEnv
    | some prometheusPort =>
      if prometheusPort = currentPort then .noServerMounted
      else .metricsServer prometheusPort
  else .noServerDisabled

/-- C9: with the Prometheus exporter enabled through the environment and a
parsable metrics port, a metrics port equal to the main server port mounts
the /metrics handler on the main router and returns no secondary server
(so no second socket is opened), while a different metrics port returns a
separate metrics server bound to that port. -/
theorem createPrometheusServer_port_selection (exporterEnv portEnv : String)
    (currentPort p : Int)
    (hexp : exporterEnv = "prometheus") (hne : portEnv ≠ "")
    (hport : atoi portEnv = some p) :
    (p = currentPort →
      CreatePrometheusServer exporterEnv portEnv currentPort = .noServerMounted)
    ∧ (p ≠ currentPort →
      CreatePrometheusServer exporterEnv portEnv currentPort
        = .metricsServer p) := by
  constructor
  · intro heq
    simp [CreatePrometheusServer, hexp, hne, hport, heq]
  · intro hne2
    simp [CreatePrometheusServer, hexp, hne, hport, hne2]

theorem createPrometheusServer_witness :
    CreatePrometheusServer "prometheus" "8080" 8080 = .noServerMounted :=
  (createPrometheusServer_port_selection "prometheus" "8080" 8080 8080
    rfl (by decide) (by decide)).1 rfl

end Gohttps
